import Mathlib

/-!
Verification of the package-pricing core of `streamlit_app.py`
(Paket-Konfigurator, Institut für Holztechnologie).

Monetary values are embedded as rationals (the Python code computes in
float; all claimed identities are exact percentage arithmetic, which the
rational embedding states precisely). Quantities come from an integer
input widget with `min_value=0`, so they are embedded as naturals.
-/

namespace Holztechnologie

/-- A catalog row as used after loading: article name and unit price
(`df[name_col]`, `df[price_col]`). -/
structure CatalogEntry where
  name : String
  price : ℚ
deriving Repr, DecidableEq

/-- One element of `package_lines` (line 95 of the app):
the dict with keys Artikel, Menge, Einzelpreis, ZeileNetto. -/
structure PackageLine where
  artikel : String
  menge : ℕ
  einzelpreis : ℚ
  zeileNetto : ℚ
deriving Repr, DecidableEq

/-- Embedding of `df[df[name_col] == art].iloc[0]` restricted to the price
column: the price of the first catalog row whose name equals `art`;
`none` when no row matches (in which case `.iloc[0]` raises in Python). -/
def lookupPrice (catalog : List CatalogEntry) (art : String) : Option ℚ :=
  (catalog.find? (fun e => e.name == art)).map (fun e => e.price)

/-- Embedding of the selection loop (lines 88-95): for each selected
article, look up its price and append a line with `ZeileNetto = qty * price`.
Returns `none` when a selected article is absent from the catalog (the
Python `.iloc[0]` would raise there). -/
def mkPackageLines (catalog : List CatalogEntry) : List (String × ℕ) → Option (List PackageLine)
  | [] => some []
  | (art, qty) :: rest =>
    match lookupPrice catalog art with
    | none => none
    | some price =>
      match mkPackageLines catalog rest with
      | none => none
      | some lines =>
        some ({ artikel := art, menge := qty, einzelpreis := price,
                zeileNetto := (qty : ℚ) * price } :: lines)

/-- Embedding of the `total_net` accumulator (lines 87-94): starts at 0.0
and adds every selected line's `ZeileNetto`, including quantity-0 lines. -/
def totalNet (lines : List PackageLine) : ℚ :=
  lines.foldl (fun acc l => acc + l.zeileNetto) 0

/-- Embedding of `package_df = package_df[package_df["Menge"] > 0]`
(line 101): keep exactly the lines with positive quantity. -/
def packageDf (lines : List PackageLine) : List PackageLine :=
  lines.filter (fun l => 0 < l.menge)

/-- Embedding of `net_sum = package_df["ZeileNetto"].sum()` (line 108). -/
def netSum (lines : List PackageLine) : ℚ :=
  (lines.map (fun l => l.zeileNetto)).sum

/-- Embedding of `apply_vat = mwst_pct != 0` (line 57). -/
def applyVat (mwstPct : ℚ) : Bool := mwstPct != 0

/-- The summary block computed at lines 108-112. -/
structure Summary where
  netSum : ℚ
  discountAmount : ℚ
  netAfterDiscount : ℚ
  vatAmount : ℚ
  grossTotal : ℚ
deriving Repr, DecidableEq

/-- Embedding of the summary computation (lines 108-112):
`discount_amount = net_sum * (discount_pct/100.0)`,
`net_after_discount = net_sum - discount_amount`,
`vat_amount = net_after_discount * (mwst_pct/100.0) if apply_vat else 0.0`,
`gross_total = net_after_discount + vat_amount`. -/
def computeSummary (netSum discountPct mwstPct : ℚ) : Summary :=
  let discount_amount := netSum * (discountPct / 100)
  let net_after_discount := netSum - discount_amount
  let vat_amount := if applyVat mwstPct then net_after_discount * (mwstPct / 100) else 0
  { netSum := netSum
    discountAmount := discount_amount
    netAfterDiscount := net_after_discount
    vatAmount := vat_amount
    grossTotal := net_after_discount + vat_amount }

/-- One row of `export_df` (lines 130-136): a package line plus the
summary columns repeated on every row. -/
structure ExportRow where
  artikel : String
  menge : ℕ
  einzelpreis : ℚ
  zeileNetto : ℚ
  rabattPct : ℚ
  mwstPct : ℚ
  nettoSumme : ℚ
  nettoNachRabatt : ℚ
  mwstBetrag : ℚ
  bruttoSumme : ℚ
deriving Repr, DecidableEq

/-- Embedding of the `export_df` construction (lines 130-136): one row per
line of the filtered `package_df`, with the summary figures appended as
constant columns. -/
def exportDf (pdf : List PackageLine) (discountPct mwstPct : ℚ) : List ExportRow :=
  let s := computeSummary (netSum pdf) discountPct mwstPct
  pdf.map (fun l =>
    { artikel := l.artikel, menge := l.menge, einzelpreis := l.einzelpreis,
      zeileNetto := l.zeileNetto, rabattPct := discountPct, mwstPct := mwstPct,
      nettoSumme := s.netSum, nettoNachRabatt := s.netAfterDiscount,
      mwstBetrag := s.vatAmount, bruttoSumme := s.grossTotal })

/-- Embedding of the per-item loop of the offer text (lines 147-148): the
data interpolated into each `- qty × article @ price € = line €` item line,
one tuple per row of the filtered `package_df` (the 2-decimal string
formatting is presentation only). -/
def offerItems (pdf : List PackageLine) : List (ℕ × String × ℚ × ℚ) :=
  pdf.map (fun r => (r.menge, r.artikel, r.einzelpreis, r.zeileNetto))

/-!
Catalog loader (`load_data`, lines 16-39), the caller guard (lines 41-52)
and the upload handler (lines 162-172).
-/

/-- A spreadsheet cell as seen by `pd.to_numeric(..., errors='coerce')`:
either a cell that parses to a number, or one that does not (and turns
into NaN before `fillna(0)`). -/
inductive Cell where
  | num (q : ℚ)
  | other (s : String)
deriving Repr, DecidableEq

/-- Embedding of `pd.to_numeric(df[price_col], errors='coerce').fillna(0)`
on a single cell (line 38): a numeric cell keeps its value, a non-numeric
cell becomes 0, never an error. -/
def coerceCell : Cell → ℚ
  | Cell.num q => q
  | Cell.other _ => 0

/-- The whole price column after coercion (line 38): cellwise application
of `coerceCell`. -/
def loadPrices (cells : List Cell) : List ℚ :=
  cells.map coerceCell

/-- Case-insensitive lowering of a header character, embedding Python's
`str.lower()` on the alphabet that matters here (ASCII letters and the
German umlauts appearing in the keyword set). -/
def lowerChar (c : Char) : Char :=
  if 'A' ≤ c && c ≤ 'Z' then Char.ofNat (c.toNat + 32)
  else if c = 'Ä' then 'ä'
  else if c = 'Ö' then 'ö'
  else if c = 'Ü' then 'ü'
  else c

/-- Embedding of `c.lower()` (line 28): characterwise lowering. -/
def lowerStr (s : String) : String := String.mk (s.toList.map lowerChar)

/-- Whether the character list `needle` is an initial segment of `hay`. -/
def startsWithChars : List Char → List Char → Bool
  | [], _ => true
  | _ :: _, [] => false
  | a :: as, b :: bs => a == b && startsWithChars as bs

/-- Whether `needle` occurs contiguously inside `hay`
(Python's `needle in hay` on strings). -/
def containsChars (needle : List Char) : List Char → Bool
  | [] => needle.isEmpty
  | c :: rest => startsWithChars needle (c :: rest) || containsChars needle rest

/-- Embedding of Python's substring test `needle in hay`. -/
def strContains (hay needle : String) : Bool :=
  containsChars needle.toList hay.toList

/-- Embedding of the keyword test of line 29: the lowercased header
contains one of "pro", "stück", "set", "€". -/
def keywordMatch (c : String) : Bool :=
  let lower := lowerStr c
  strContains lower "pro" || strContains lower "stück" ||
    strContains lower "set" || strContains lower "€"

/-- Embedding of the `for c in df.columns: ... break` loop of
lines 26-31: the first header matching the keyword test, if any. -/
def findPriceColLoop : List String → Option String
  | [] => none
  | c :: rest => if keywordMatch c then some c else findPriceColLoop rest

/-- Embedding of the full price-column choice (lines 26-33): the loop
result, or the last column when nothing matched and there are at least
two columns. -/
def inferPriceCol (cols : List String) : Option String :=
  match findPriceColLoop cols with
  | some c => some c
  | none => if 2 ≤ cols.length then cols.getLast? else none

/-- Embedding of `name_col = df.columns[0] if df.shape[1] > 0 else None`
(line 35). -/
def inferNameCol (cols : List String) : Option String :=
  cols.head?

/-- Whitespace as stripped by Python's `str.strip()`. -/
def isSpaceChar (c : Char) : Bool :=
  c = ' ' || c = '\t' || c = '\n' || c = '\r'

/-- Drop leading whitespace characters. -/
def dropLeadingSpace : List Char → List Char
  | [] => []
  | c :: rest => if isSpaceChar c then dropLeadingSpace rest else c :: rest

/-- Embedding of `str(c).strip()` applied to each header label
(line 24): surrounding whitespace is removed from both ends. -/
def stripStr (s : String) : String :=
  String.mk ((dropLeadingSpace ((dropLeadingSpace s.toList).reverse)).reverse)

/-- A parsed spreadsheet as handed over by `pd.read_excel`: header labels
and the rows' cells (row-major, aligned with the headers). -/
structure RawTable where
  headers : List String
  rows : List (List Cell)
deriving Repr, DecidableEq

/-- The cells of column `j` of a raw table. -/
def colCells (t : RawTable) (j : ℕ) : List Cell :=
  t.rows.map (fun r => r.getD j (Cell.other ""))

/-- Like `inferPriceCol` but returning the column index, used to fetch the
price cells of a row-major table (the code addresses the column by its
unique label; index addressing is the same selection). -/
def inferPriceIdx (cols : List String) : Option ℕ :=
  match cols.findIdx? keywordMatch with
  | some i => some i
  | none => if 2 ≤ cols.length then some (cols.length - 1) else none

/-- The cells of the inferred price column of a table, the only column
the coercion of line 38 touches (empty when no price column is
inferred). -/
def priceColCells (t : RawTable) : List Cell :=
  match inferPriceIdx (t.headers.map stripStr) with
  | some j => colCells t j
  | none => []

/-- What `load_data` returns on its success path (a triple
`df, name_col, price_col`), reduced to the fields the claims touch:
the coerced price column, the two inferred column labels, and the row and
column counts driving the `df.empty` check. -/
structure LoadedData where
  nameCol : Option String
  priceCol : Option String
  prices : List ℚ
  nRows : ℕ
  nCols : ℕ
deriving Repr, DecidableEq

/-- Embedding of the two exits of `load_data` (lines 17-39): the `except`
branch returns a bare empty `DataFrame` (here `failure`), the normal path
returns the processed triple. -/
inductive LoadResult where
  | failure
  | success (d : LoadedData)
deriving Repr, DecidableEq

/-- Embedding of `load_data` (lines 17-39) on the outcome of
`pd.read_excel` (`none` = the read raised): strip the headers, infer the
name and price columns, coerce the price column. -/
def load_data (parsed : Option RawTable) : LoadResult :=
  match parsed with
  | none => LoadResult.failure
  | some t =>
    let headers := t.headers.map stripStr
    let priceIdx := inferPriceIdx headers
    LoadResult.success
      { nameCol := inferNameCol headers
        priceCol := inferPriceCol headers
        prices := match priceIdx with
          | some j => loadPrices (colCells t j)
          | none => []
        nRows := t.rows.length
        nCols := headers.length }

/-- The catalog rows that reach the rest of the app: empty on the failure
exit. -/
def loadedPrices : LoadResult → List ℚ
  | LoadResult.failure => []
  | LoadResult.success d => d.prices

/-- What one script run does after `load_data` (lines 41-52): either the
`df.empty` guard fires (`st.warning` is shown and `st.stop()` ends the run
without touching the host process, and no selection UI is rendered), or
the app goes on rendering against the loaded data. -/
inductive AppOutcome where
  | halted (warningShown : Bool)
  | rendering (d : LoadedData)
deriving Repr, DecidableEq

/-- Embedding of the caller (lines 41-52): the failure exit is not a
3-tuple, so `df` is set to an empty frame; then `if df.empty:` shows the
warning and stops. A pandas frame is empty when it has no rows or no
columns. -/
def appGuard (r : LoadResult) : AppOutcome :=
  match r with
  | LoadResult.failure => AppOutcome.halted true
  | LoadResult.success d =>
    if d.nRows = 0 || d.nCols = 0 then AppOutcome.halted true
    else AppOutcome.rendering d

/-- The path `load_data` reads by default (line 17). -/
def load_data_default_path : String := "Miete.xlsx"

/-- The fixed path the upload handler writes to (line 168). -/
def upload_save_path : String := "/mnt/data/Miete_uploaded.xlsx"

/-- The file store visible to the app: contents (already parsed) by path. -/
def FileStore : Type := String → Option RawTable

/-- Embedding of the upload handler's persistence step (lines 168-169):
write the uploaded spreadsheet to the fixed path, leaving every other path
unchanged. -/
def handleUpload (fs : FileStore) (uploaded : RawTable) : FileStore :=
  fun p => if p = upload_save_path then some uploaded else fs p

/-- What a restarted/reloaded process loads: `load_data()` with its
default argument, reading `load_data_default_path` from the store. -/
def reloadCatalog (fs : FileStore) : LoadResult :=
  load_data (fs load_data_default_path)

/-!
Concrete fixtures used by scenario theorems, counterexamples and
witnesses.
-/

/-- The catalog of Scenario A of the spec. -/
def tischStuhlCatalog : List CatalogEntry :=
  [{ name := "Tisch", price := 10 }, { name := "Stuhl", price := 5 }]

/-- The package lines of the selection Tisch 2, Stuhl 0 against the
Scenario A catalog, used by concrete witnesses. -/
def zeroQtyLines : List PackageLine :=
  [{ artikel := "Tisch", menge := 2, einzelpreis := 10, zeileNetto := 20 },
   { artikel := "Stuhl", menge := 0, einzelpreis := 5, zeileNetto := 0 }]

/-- A table whose price column holds a negative numeric cell: the header
"Preis pro Tag" matches the keyword scan, the cell −5 is numeric, so the
coercion keeps it. -/
def negPriceTable : RawTable :=
  { headers := ["Artikel", "Preis pro Tag"],
    rows := [[Cell.other "Tisch", Cell.num (-5)]] }

/-- Whether a cell cannot load to a negative value: numeric cells must be
nonnegative, non-numeric cells always coerce to 0. -/
def cellNonneg (c : Cell) : Bool :=
  match c with
  | Cell.num q => decide (0 ≤ q)
  | Cell.other _ => true

/-- A table whose price column is well behaved (one numeric nonnegative
price, one non-numeric cell) while a non-price column holds a negative
numeric cell — the price-column coercion never looks at the latter. -/
def okPriceTable : RawTable :=
  { headers := ["Artikel", "Preis pro Tag"],
    rows := [[Cell.other "Tisch", Cell.num 10], [Cell.num (-3), Cell.other "n/a"]] }

/- Helper lemmas about the calculator. -/

theorem mkPackageLines_sound (catalog : List CatalogEntry) :
    ∀ (sel : List (String × ℕ)) (lines : List PackageLine),
      mkPackageLines catalog sel = some lines →
      ∀ l ∈ lines, l.zeileNetto = (l.menge : ℚ) * l.einzelpreis ∧
        ∃ e ∈ catalog, l.einzelpreis = e.price := by
  intro sel
  induction sel with
  | nil =>
    intro lines h l hl
    simp [mkPackageLines] at h
    subst h
    simp at hl
  | cons p rest ih =>
    intro lines h l hl
    obtain ⟨art, qty⟩ := p
    simp only [mkPackageLines] at h
    cases hlk : lookupPrice catalog art with
    | none => rw [hlk] at h; simp at h
    | some price =>
      rw [hlk] at h
      cases hrest : mkPackageLines catalog rest with
      | none => rw [hrest] at h; simp at h
      | some tail =>
        rw [hrest] at h
        simp only [Option.some.injEq] at h
        subst h
        rcases List.mem_cons.mp hl with hhd | htl
        · subst hhd
          refine ⟨rfl, ?_⟩
          rw [lookupPrice, Option.map_eq_some'] at hlk
          obtain ⟨e, he, hep⟩ := hlk
          exact ⟨e, List.mem_of_find?_eq_some he, hep.symm⟩
        · exact ih tail hrest l htl

theorem totalNet_eq_sum (lines : List PackageLine) :
    totalNet lines = (lines.map (fun l => l.zeileNetto)).sum := by
  have key : ∀ (ls : List PackageLine) (c : ℚ),
      ls.foldl (fun acc l => acc + l.zeileNetto) c = c + (ls.map (fun l => l.zeileNetto)).sum := by
    intro ls
    induction ls with
    | nil => intro c; simp
    | cons x xs ih => intro c; simp [List.foldl_cons, ih, add_assoc]
  simpa [totalNet] using key lines 0

theorem sum_filter_of_zero (f : PackageLine → ℚ) (p : PackageLine → Bool)
    (lines : List PackageLine) (h : ∀ l ∈ lines, p l = false → f l = 0) :
    ((lines.filter p).map f).sum = (lines.map f).sum := by
  induction lines with
  | nil => simp
  | cons x xs ih =>
    by_cases hx : p x = true
    · simp [List.filter_cons, hx]
      exact ih (fun l hl => h l (List.mem_cons_of_mem x hl))
    · have hx' : p x = false := by simpa using hx
      have hfx : f x = 0 := h x (List.mem_cons_self x xs) hx'
      simp [List.filter_cons, hx', hfx]
      exact ih (fun l hl => h l (List.mem_cons_of_mem x hl))

/-!
Claim theorems.
-/

/-- C1: for every package computation with net subtotal `s`, discount
percentage `d` and VAT percentage `v` in 0, 7, 19: the discount amount is
`s * d / 100`, the net after discount is `s` minus that, the VAT amount is
0 when `v = 0` and net-after-discount times `v / 100` otherwise, and the
gross total is net-after-discount plus VAT amount. -/
theorem summary_formulas (s d v : ℚ) (hv : v = 0 ∨ v = 7 ∨ v = 19) :
    (computeSummary s d v).discountAmount = s * d / 100 ∧
    (computeSummary s d v).netAfterDiscount = s - s * d / 100 ∧
    (v = 0 → (computeSummary s d v).vatAmount = 0) ∧
    (v ≠ 0 → (computeSummary s d v).vatAmount
        = (computeSummary s d v).netAfterDiscount * v / 100) ∧
    (computeSummary s d v).grossTotal
        = (computeSummary s d v).netAfterDiscount + (computeSummary s d v).vatAmount := by
  refine ⟨by simp [computeSummary, mul_div_assoc], by simp [computeSummary, mul_div_assoc],
    ?_, ?_, by simp [computeSummary]⟩
  · intro h0
    simp [computeSummary, applyVat, h0]
  · intro h0
    simp [computeSummary, applyVat, bne_iff_ne, h0, mul_div_assoc]

/-- Witness for `summary_formulas` at `s = 35`, `d = 10`, `v = 19`. -/
theorem summary_formulas_witness :
    ((19:ℚ) = 0 ∨ (19:ℚ) = 7 ∨ (19:ℚ) = 19) ∧
    ((computeSummary 35 10 19).discountAmount = 35 * 10 / 100 ∧
     (computeSummary 35 10 19).netAfterDiscount = 35 - 35 * 10 / 100 ∧
     ((19:ℚ) = 0 → (computeSummary 35 10 19).vatAmount = 0) ∧
     ((19:ℚ) ≠ 0 → (computeSummary 35 10 19).vatAmount
         = (computeSummary 35 10 19).netAfterDiscount * 19 / 100) ∧
     (computeSummary 35 10 19).grossTotal
         = (computeSummary 35 10 19).netAfterDiscount + (computeSummary 35 10 19).vatAmount) :=
  ⟨by norm_num, summary_formulas 35 10 19 (by norm_num)⟩

/-- C3: for the catalog Tisch at 10.00 and Stuhl at 5.00, the selection
Tisch 2 and Stuhl 3, discount 0 and VAT 19, the computed summary has net
subtotal 35.00, VAT amount 6.65 and gross total 41.65. -/
theorem scenarioA :
    (mkPackageLines tischStuhlCatalog [("Tisch", 2), ("Stuhl", 3)]).map
        (fun lines =>
          ((computeSummary (netSum (packageDf lines)) 0 19).netSum,
           (computeSummary (netSum (packageDf lines)) 0 19).vatAmount,
           (computeSummary (netSum (packageDf lines)) 0 19).grossTotal))
      = some (35, 6.65, 41.65) := by
  have h : mkPackageLines tischStuhlCatalog [("Tisch", 2), ("Stuhl", 3)] =
      some [{ artikel := "Tisch", menge := 2, einzelpreis := 10, zeileNetto := 20 },
            { artikel := "Stuhl", menge := 3, einzelpreis := 5, zeileNetto := 15 }] := by
    simp [mkPackageLines, lookupPrice, tischStuhlCatalog]
    norm_num
  rw [h]
  simp only [Option.map_some']
  norm_num [computeSummary, netSum, packageDf, applyVat, List.filter]

/-- C6: the price column chosen by the loader is the first header
(scanning left to right) whose lowercased text contains one of "pro",
"stück", "set", "€"; when no header matches and there are at least two
columns it is the last column; the name column is always the first
column. -/
theorem price_col_inference (cols : List String) :
    inferPriceCol cols =
      (match cols.find? keywordMatch with
       | some c => some c
       | none => if 2 ≤ cols.length then cols.getLast? else none) ∧
    inferNameCol cols = cols.head? := by
  refine ⟨?_, rfl⟩
  have hloop : findPriceColLoop cols = cols.find? keywordMatch := by
    induction cols with
    | nil => rfl
    | cons c rest ih =>
      by_cases h : keywordMatch c
      · simp [findPriceColLoop, List.find?, h]
      · simp only [Bool.not_eq_true] at h
        simp [findPriceColLoop, List.find?, h, ih]
  simp [inferPriceCol, hloop]

/-- C7: a numeric price cell parses to its value, a non-numeric cell
becomes 0 without an error, and a malformed cell in the middle of the
column leaves every other cell's loaded value intact. -/
theorem price_coercion (pre post : List Cell) (bad : String) (q : ℚ) :
    coerceCell (Cell.num q) = q ∧
    coerceCell (Cell.other bad) = 0 ∧
    loadPrices (pre ++ Cell.other bad :: post) = loadPrices pre ++ 0 :: loadPrices post := by
  refine ⟨rfl, rfl, ?_⟩
  simp [loadPrices, coerceCell]

/-- C8: when the spreadsheet cannot be parsed at all, `load_data` takes
its failure exit, the resulting catalog is empty, the caller guard shows
the warning and halts the script run (the `halted` outcome models
`st.stop()` ending the run while the host process survives), and no
rendering against the empty catalog happens. -/
theorem load_failure_halts :
    load_data none = LoadResult.failure ∧
    loadedPrices (load_data none) = [] ∧
    appGuard (load_data none) = AppOutcome.halted true ∧
    ∀ d, appGuard (load_data none) ≠ AppOutcome.rendering d := by
  refine ⟨rfl, rfl, rfl, ?_⟩
  intro d h
  simp [load_data, appGuard] at h

/-- C9, as the code actually behaves: the upload handler persists the
uploaded spreadsheet to the fixed path `/mnt/data/Miete_uploaded.xlsx`,
but a restarted process calls `load_data()` on its default path
`Miete.xlsx`, which the upload never writes — so the catalog after reload
is the same as if no upload had happened. -/
theorem upload_has_no_effect_on_reload (fs : FileStore) (uploaded : RawTable) :
    handleUpload fs uploaded upload_save_path = some uploaded ∧
    reloadCatalog (handleUpload fs uploaded) = reloadCatalog fs := by
  constructor
  · simp [handleUpload]
  · have hne : load_data_default_path ≠ upload_save_path := by decide
    simp [reloadCatalog, handleUpload, hne]

/-- C2: every line with nonpositive quantity is dropped before totaling:
the net subtotal is the sum of quantity times unit price over exactly the
lines with positive quantity, and a quantity-0 line reaches neither the
summary table nor the spreadsheet export nor the textual offer. -/
theorem quantity_filter (catalog : List CatalogEntry) (sel : List (String × ℕ))
    (lines : List PackageLine) (d v : ℚ)
    (h : mkPackageLines catalog sel = some lines) :
    netSum (packageDf lines)
      = ((lines.filter (fun l => 0 < l.menge)).map
          (fun l => (l.menge : ℚ) * l.einzelpreis)).sum ∧
    (∀ l ∈ packageDf lines, 0 < l.menge) ∧
    (∀ r ∈ exportDf (packageDf lines) d v, 0 < r.menge) ∧
    (∀ it ∈ offerItems (packageDf lines), 0 < it.1) := by
  have hmem : ∀ l ∈ packageDf lines, 0 < l.menge := by
    intro l hl
    have := List.mem_filter.mp hl
    simpa using this.2
  refine ⟨?_, hmem, ?_, ?_⟩
  · unfold netSum packageDf
    apply congrArg List.sum
    apply List.map_congr_left
    intro l hl
    exact (mkPackageLines_sound catalog sel lines h l (List.mem_of_mem_filter hl)).1
  · intro r hr
    simp only [exportDf, List.mem_map] at hr
    obtain ⟨l, hl, rfl⟩ := hr
    exact hmem l hl
  · intro it hit
    simp only [offerItems, List.mem_map] at hit
    obtain ⟨l, hl, rfl⟩ := hit
    exact hmem l hl

theorem mk_zeroQtyLines :
    mkPackageLines tischStuhlCatalog [("Tisch", 2), ("Stuhl", 0)] = some zeroQtyLines := by
  simp [mkPackageLines, lookupPrice, tischStuhlCatalog, zeroQtyLines]
  norm_num

/-- Witness for `quantity_filter` at the Scenario A catalog with the
selection Tisch 2, Stuhl 0, discount 0, VAT 19. -/
theorem quantity_filter_witness :
    mkPackageLines tischStuhlCatalog [("Tisch", 2), ("Stuhl", 0)] = some zeroQtyLines ∧
    (netSum (packageDf zeroQtyLines)
      = ((zeroQtyLines.filter (fun l => 0 < l.menge)).map
          (fun l => (l.menge : ℚ) * l.einzelpreis)).sum ∧
    (∀ l ∈ packageDf zeroQtyLines, 0 < l.menge) ∧
    (∀ r ∈ exportDf (packageDf zeroQtyLines) 0 19, 0 < r.menge) ∧
    (∀ it ∈ offerItems (packageDf zeroQtyLines), 0 < it.1)) :=
  ⟨mk_zeroQtyLines,
   quantity_filter tischStuhlCatalog [("Tisch", 2), ("Stuhl", 0)] zeroQtyLines 0 19
     mk_zeroQtyLines⟩

/-- C10: the running total accumulated over all selected lines, the
quantity-0 ones included, equals the net subtotal recomputed over only the
filtered lines: the two net-sum computations in the code agree. -/
theorem totalNet_eq_filtered_netSum (catalog : List CatalogEntry)
    (sel : List (String × ℕ)) (lines : List PackageLine)
    (h : mkPackageLines catalog sel = some lines) :
    totalNet lines = netSum (packageDf lines) := by
  rw [totalNet_eq_sum]
  unfold netSum packageDf
  refine (sum_filter_of_zero _ _ lines ?_).symm
  intro l hl hp
  have hz := (mkPackageLines_sound catalog sel lines h l hl).1
  have hnot : ¬ 0 < l.menge := by simpa using hp
  have hm : l.menge = 0 := by omega
  rw [hz, hm]
  simp

/-- Witness for `totalNet_eq_filtered_netSum` at the Scenario A catalog
with the selection Tisch 2, Stuhl 0. -/
theorem totalNet_eq_filtered_netSum_witness :
    mkPackageLines tischStuhlCatalog [("Tisch", 2), ("Stuhl", 0)] = some zeroQtyLines ∧
    totalNet zeroQtyLines = netSum (packageDf zeroQtyLines) :=
  ⟨mk_zeroQtyLines,
   totalNet_eq_filtered_netSum tischStuhlCatalog [("Tisch", 2), ("Stuhl", 0)] zeroQtyLines
     mk_zeroQtyLines⟩

/-- C4 counterexample: `pd.to_numeric(...).fillna(0)` only replaces
non-numeric cells; a numeric cell holding −5 survives loading as −5, so
not every loaded unit price is nonnegative. -/
theorem loaded_price_negative_cex :
    ¬ ∀ p ∈ loadedPrices (load_data (some negPriceTable)), 0 ≤ p := by
  intro hall
  have hmem : (-5 : ℚ) ∈ loadedPrices (load_data (some negPriceTable)) := by
    have : loadedPrices (load_data (some negPriceTable)) = [(-5 : ℚ)] := by decide
    rw [this]
    simp
  have := hall (-5) hmem
  norm_num at this

/-- C4 amended: non-numeric price cells coerce to 0 and numeric cells keep
their value, so every loaded unit price is nonnegative provided every
numeric cell of the inferred price column is nonnegative (cells of other
columns are irrelevant, and the loader itself never clamps a negative
numeric price). -/
theorem load_data_prices_nonneg (t : RawTable)
    (h : ∀ c ∈ priceColCells t, cellNonneg c = true) :
    ∀ p ∈ loadedPrices (load_data (some t)), 0 ≤ p := by
  intro p hp
  simp only [load_data, loadedPrices] at hp
  cases hidx : inferPriceIdx (t.headers.map stripStr) with
  | none => rw [hidx] at hp; simp at hp
  | some j =>
    rw [hidx] at hp
    simp only [loadPrices, List.mem_map] at hp
    obtain ⟨c, hc, hcp⟩ := hp
    have hmem : c ∈ priceColCells t := by
      simp only [priceColCells, hidx]
      exact hc
    have hcn := h c hmem
    cases c with
    | num q =>
      have : (0:ℚ) ≤ q := of_decide_eq_true (by simpa [cellNonneg] using hcn)
      rw [← hcp]
      simpa [coerceCell] using this
    | other s =>
      rw [← hcp]
      simp [coerceCell]

/-- Witness for `load_data_prices_nonneg` at `okPriceTable`, whose price
column is nonnegative while another column holds a negative numeric
cell. -/
theorem load_data_prices_nonneg_witness :
    (∀ c ∈ priceColCells okPriceTable, cellNonneg c = true) ∧
    ∀ p ∈ loadedPrices (load_data (some okPriceTable)), 0 ≤ p :=
  ⟨by decide, load_data_prices_nonneg okPriceTable (by decide)⟩

/-- C5: whenever the inputs are in-domain (quantities are naturals by
construction, every catalog price is nonnegative, the discount percentage
lies in 0..100 and the VAT percentage is one of 0, 7, 19), the summary
satisfies grossTotal ≥ netAfterDiscount ≥ 0. -/
theorem totals_nonneg (catalog : List CatalogEntry) (sel : List (String × ℕ))
    (lines : List PackageLine) (d v : ℚ)
    (hcat : ∀ e ∈ catalog, 0 ≤ e.price)
    (hd0 : 0 ≤ d) (hd1 : d ≤ 100) (hv : v = 0 ∨ v = 7 ∨ v = 19)
    (h : mkPackageLines catalog sel = some lines) :
    0 ≤ (computeSummary (netSum (packageDf lines)) d v).netAfterDiscount ∧
    (computeSummary (netSum (packageDf lines)) d v).netAfterDiscount
      ≤ (computeSummary (netSum (packageDf lines)) d v).grossTotal := by
  have hnet : 0 ≤ netSum (packageDf lines) := by
    unfold netSum
    apply List.sum_nonneg
    intro x hx
    rw [List.mem_map] at hx
    obtain ⟨l, hl, rfl⟩ := hx
    obtain ⟨hz, e, he, hep⟩ :=
      mkPackageLines_sound catalog sel lines h l (List.mem_of_mem_filter hl)
    rw [hz, hep]
    exact mul_nonneg (by positivity) (hcat e he)
  have hfrac : d / 100 ≤ 1 := by
    rw [div_le_one] <;> norm_num [hd1]
  have hnad : 0 ≤ netSum (packageDf lines) - netSum (packageDf lines) * (d / 100) := by
    have h1 : netSum (packageDf lines) * (d / 100) ≤ netSum (packageDf lines) * 1 :=
      mul_le_mul_of_nonneg_left hfrac hnet
    linarith
  have hv0 : 0 ≤ v := by rcases hv with h' | h' | h' <;> rw [h'] <;> norm_num
  have hvat : 0 ≤ (computeSummary (netSum (packageDf lines)) d v).vatAmount := by
    simp only [computeSummary]
    by_cases hav : applyVat v
    · simp only [hav, if_true]
      exact mul_nonneg hnad (div_nonneg hv0 (by norm_num))
    · have hfalse : applyVat v = false := by simpa using hav
      simp [hfalse]
  constructor
  · simpa [computeSummary] using hnad
  · simp only [computeSummary] at hvat ⊢
    linarith

/-- Witness for `totals_nonneg` at the Scenario A catalog, the selection
Tisch 2, Stuhl 0, discount 10, VAT 7. -/
theorem totals_nonneg_witness :
    (∀ e ∈ tischStuhlCatalog, 0 ≤ e.price) ∧
    (0:ℚ) ≤ 10 ∧ (10:ℚ) ≤ 100 ∧ ((7:ℚ) = 0 ∨ (7:ℚ) = 7 ∨ (7:ℚ) = 19) ∧
    mkPackageLines tischStuhlCatalog [("Tisch", 2), ("Stuhl", 0)] = some zeroQtyLines ∧
    (0 ≤ (computeSummary (netSum (packageDf zeroQtyLines)) 10 7).netAfterDiscount ∧
     (computeSummary (netSum (packageDf zeroQtyLines)) 10 7).netAfterDiscount
       ≤ (computeSummary (netSum (packageDf zeroQtyLines)) 10 7).grossTotal) :=
  ⟨by decide, by norm_num, by norm_num, by norm_num, mk_zeroQtyLines,
   totals_nonneg tischStuhlCatalog [("Tisch", 2), ("Stuhl", 0)] zeroQtyLines 10 7
     (by decide) (by norm_num) (by norm_num) (by norm_num) mk_zeroQtyLines⟩
